import Mathlib

set_option maxHeartbeats 1000000

/-!
Verification of the drmemtrace scheduler launcher
(clients/drcachesim/tests/scheduler_launcher.cpp) and of the drpt2trace
DRMEMTRACE parsing loop (clients/drcachesim/drpt2trace/drpt2trace.cpp),
together with models of the scheduler components driven by the launcher.
-/

namespace SchedLauncher

/-- Status codes of scheduler_t::stream_status_t as distinguished by the
launcher's consumer loop in simulate_core: STATUS_OK, STATUS_EOF,
STATUS_WAIT, and every other (error) status collapsed to its integer code,
which is what the FATAL_ERROR diagnostic prints. -/
inductive StreamStatus where
  | ok
  | eof
  | wait
  | err (code : Nat)
deriving DecidableEq

/-- One result of stream->next_record(record): the returned status plus the
only record field simulate_core reads, record.instr.tid (memref_tid_t). -/
structure Pull where
  status : StreamStatus
  tid : Int
deriving DecidableEq

/-- INVALID_THREAD_ID, the initial value of prev_tid in simulate_core. -/
def invalidThreadId : Int := 0

/-- How simulate_core finishes: the loop exits at STATUS_EOF (finished), it
aborts with the FATAL_ERROR diagnostic carrying the status code (fatal), or
the modelled pull sequence ran out while the loop was still running
(pending). -/
inductive Outcome where
  | finished
  | fatal (code : Nat)
  | pending
deriving DecidableEq

/-- The observable per-core result of simulate_core: how it ended, the
thread_sequence vector it built, and how many times it yielded on
STATUS_WAIT. -/
structure CoreResult where
  outcome : Outcome
  threadSequence : List Int
  yields : Nat
deriving DecidableEq

/-- The thread_sequence update of simulate_core for one STATUS_OK record:
push_back(tid) when the vector is empty, or when tid differs from prev_tid;
otherwise leave it unchanged. -/
def simStep (seq : List Int) (prev tid : Int) : List Int :=
  if seq.isEmpty then seq ++ [tid]
  else if tid ≠ prev then seq ++ [tid]
  else seq

/-- The simulate_core loop over the sequence of next_record results, with
the current thread_sequence, prev_tid, and yield count as loop state. -/
def simLoop : List Pull → List Int → Int → Nat → CoreResult
  | [], seq, _, yields => ⟨Outcome.pending, seq, yields⟩
  | p :: rest, seq, prev, yields =>
    match p.status with
    | StreamStatus.eof => ⟨Outcome.finished, seq, yields⟩
    | StreamStatus.wait => simLoop rest seq prev (yields + 1)
    | StreamStatus.err c => ⟨Outcome.fatal c, seq, yields⟩
    | StreamStatus.ok => simLoop rest (simStep seq prev p.tid) p.tid yields

/-- simulate_core of scheduler_launcher.cpp, as a function of the sequence
of next_record results its stream hands it. -/
def simulate_core (pulls : List Pull) : CoreResult :=
  simLoop pulls [] invalidThreadId 0

/-- The launcher spawns one simulate_core thread per core; each thread runs
on its own output stream, modelled as each core index getting its own pull
sequence. -/
def runCore (streams : Nat → List Pull) (j : Nat) : CoreResult :=
  simulate_core (streams j)

/-- The thread ids of the records the loop actually processes with
STATUS_OK: ok pulls up to (excluding) the first terminal status. -/
def processedOkTids : List Pull → List Int
  | [] => []
  | p :: rest =>
    match p.status with
    | StreamStatus.eof => []
    | StreamStatus.err _ => []
    | StreamStatus.wait => processedOkTids rest
    | StreamStatus.ok => p.tid :: processedOkTids rest

/-- The first terminal (neither STATUS_OK nor STATUS_WAIT) status of a pull
sequence, if any. -/
def firstTerminal : List Pull → Option StreamStatus
  | [] => none
  | p :: rest =>
    match p.status with
    | StreamStatus.eof => some StreamStatus.eof
    | StreamStatus.err c => some (StreamStatus.err c)
    | StreamStatus.wait => firstTerminal rest
    | StreamStatus.ok => firstTerminal rest

/-- Run-length compression, continued: drop elements equal to the previous
emitted element, emit and remember the first differing one. -/
def dedupAdjacentFrom (prev : Int) : List Int → List Int
  | [] => []
  | x :: xs => if x = prev then dedupAdjacentFrom prev xs else x :: dedupAdjacentFrom x xs

/-- Run-length compression of a list: the heads of its maximal runs of
equal adjacent elements. -/
def dedupAdjacent : List Int → List Int
  | [] => []
  | x :: xs => x :: dedupAdjacentFrom x xs

/-- scheduler_t mapping modes used by the launcher: MAP_TO_ANY_OUTPUT,
MAP_AS_PREVIOUSLY, MAP_TO_RECORDED_OUTPUT. -/
inductive MappingMode where
  | toAnyOutput
  | asPreviously
  | toRecordedOutput
deriving DecidableEq

/-- scheduler_t dependency modes used by the launcher: DEPENDENCY_IGNORE,
DEPENDENCY_TIMESTAMPS. -/
inductive DepMode where
  | ignore
  | timestamps
deriving DecidableEq

/-- The scheduler_options_t fields the launcher sets; the three persistence
stream handles are modelled by whether each is non-null. -/
structure SchedulerOptions where
  mapping : MappingMode
  deps : DepMode
  quantum_duration : Int
  verbosity : Nat
  schedule_record_ostream : Bool
  schedule_replay_istream : Bool
  replay_as_traced_istream : Bool
deriving DecidableEq

/-- The scheduler_options_t built by _tmain from the record_file,
replay_file and cpu_schedule_file options (scheduler_launcher.cpp lines
160-181): base options MAP_TO_ANY_OUTPUT / DEPENDENCY_TIMESTAMPS with the
configured quantum, then the record / replay / as-traced else-if chain. -/
def makeSchedOps (verbose : Nat) (quantum : Int)
    (recordFile replayFile cpuScheduleFile : String) : SchedulerOptions :=
  let base : SchedulerOptions :=
    { mapping := MappingMode.toAnyOutput, deps := DepMode.timestamps,
      quantum_duration := quantum, verbosity := verbose,
      schedule_record_ostream := false, schedule_replay_istream := false,
      replay_as_traced_istream := false }
  if recordFile ≠ "" then { base with schedule_record_ostream := true }
  else if replayFile ≠ "" then
    { base with schedule_replay_istream := true,
                mapping := MappingMode.asPreviously, deps := DepMode.timestamps }
  else if cpuScheduleFile ≠ "" then
    { base with mapping := MappingMode.toRecordedOutput, deps := DepMode.timestamps,
                replay_as_traced_istream := true }
  else base

/-- How many of the three persistence streams an options struct sets. -/
def persistStreamsSet (ops : SchedulerOptions) : Nat :=
  (if ops.schedule_record_ostream then 1 else 0)
  + (if ops.schedule_replay_istream then 1 else 0)
  + (if ops.replay_as_traced_istream then 1 else 0)

/-- The op_num_cores droption is declared with value range 0..8192
(scheduler_launcher.cpp line 72); values inside the range are accepted by
the option parser. -/
def numCoresAccepted (n : Int) : Bool :=
  if 0 ≤ n ∧ n ≤ 8192 then true else false

/-- Result of scheduler_t::init: success flag, the descriptive error string
later returned by get_error_string(), and how many output streams were
created. -/
structure InitOutcome where
  ok : Bool
  errorDetail : String
  outputStreams : Nat
deriving DecidableEq

/-- Modelled from the spec: scheduler_t::init (scheduler.h / scheduler.cpp
are not under src/). Per spec section 4.1 it "Fails if core_count <= 0, if
configuration is self-contradictory (e.g., both record and replay streams
set), if any workload has zero streams"; failures are configuration errors
reported with a descriptive string and no Output Stream is created; "On
success, exactly core_count Output Streams exist". -/
def schedInit (workloadSizes : List Nat) (coreCount : Int)
    (ops : SchedulerOptions) : InitOutcome :=
  if coreCount ≤ 0 then ⟨false, "invalid core count", 0⟩
  else if ops.schedule_record_ostream
      && (ops.schedule_replay_istream || ops.replay_as_traced_istream) then
    ⟨false, "both record and replay streams are set", 0⟩
  else if ops.schedule_replay_istream && ops.replay_as_traced_istream then
    ⟨false, "both replay streams are set", 0⟩
  else if workloadSizes.any (fun w => w == 0) then
    ⟨false, "workload has zero streams", 0⟩
  else ⟨true, "", coreCount.toNat⟩

/-- The launcher's observable actions after option parsing. -/
inductive LauncherEvent where
  | initCall
  | spawnThread (i : Nat)
  | joinThread (i : Nat)
  | printSched
  | writeSchedCall
deriving DecidableEq

/-- How _tmain ends: usage error, FATAL_ERROR after a failed init carrying
the scheduler's error string, FATAL_ERROR from write_recorded_schedule, or
normal exit. -/
inductive LauncherResult where
  | usageError
  | initFatal (errorDetail : String)
  | writeFatal
  | success
deriving DecidableEq

/-- The observable run of _tmain: its result, the event list in program
order, how many simulator threads were started, and how many output
streams the scheduler created. -/
structure LauncherRun where
  result : LauncherResult
  events : List LauncherEvent
  threadsStarted : Nat
  outputStreams : Nat
deriving DecidableEq

/-- _tmain of scheduler_launcher.cpp after argument conversion: usage check
on trace_dir, options built by makeSchedOps, scheduler.init (modelled by
schedInit) with FATAL_ERROR on failure, one simulator thread per core
spawned and then joined, per-core schedules printed, and, only when
record_file was set, a final write_recorded_schedule call (whose external
success is the writeOk argument). -/
def launcherMain (traceDir recordFile replayFile cpuScheduleFile : String)
    (numCores quantum : Int) (verbose : Nat) (workloadSizes : List Nat)
    (writeOk : Bool) : LauncherRun :=
  if traceDir = "" then ⟨LauncherResult.usageError, [], 0, 0⟩
  else
    let ops := makeSchedOps verbose quantum recordFile replayFile cpuScheduleFile
    let ini := schedInit workloadSizes numCores ops
    if ini.ok = false then
      ⟨LauncherResult.initFatal ini.errorDetail, [LauncherEvent.initCall], 0, 0⟩
    else
      let n := numCores.toNat
      let evts := LauncherEvent.initCall
          :: ((List.range n).map LauncherEvent.spawnThread
            ++ (List.range n).map LauncherEvent.joinThread
            ++ [LauncherEvent.printSched]
            ++ (if recordFile = "" then [] else [LauncherEvent.writeSchedCall]))
      let res := if recordFile = "" then LauncherResult.success
        else if writeOk then LauncherResult.success else LauncherResult.writeFatal
      ⟨res, evts, n, ini.outputStreams⟩

/-- Occurrences of one event in an event list. -/
def countEv (x : LauncherEvent) : List LauncherEvent → Nat
  | [] => 0
  | y :: rest => (if y = x then 1 else 0) + countEv x rest

end SchedLauncher

namespace SchedModel

/-- Pointwise bump of a per-index counter. -/
def bumpAt (pos : Nat → Nat) (i : Nat) : Nat → Nat :=
  fun j => if j = i then pos j + 1 else pos j

/-- One scheduling decision: which input's next record the given output
consumes. -/
structure SchedStep where
  output : Nat
  input : Nat
deriving DecidableEq

/-- Modelled from the spec: validity of a run of the Scheduler core
(scheduler.cpp is not under src/). A step is valid when the chosen input
still has an unconsumed record at its current position (spec sections 2-4:
records flow in stream order from Record Streams through the Scheduler to
Output Streams, one record per pull). -/
def validFrom (streams : List (List α)) (pos : Nat → Nat) : List SchedStep → Bool
  | [] => true
  | s :: rest =>
    match (streams.getD s.input []).get? (pos s.input) with
    | none => false
    | some _ => validFrom streams (bumpAt pos s.input) rest

/-- A valid scheduler run starting from unconsumed streams. -/
def validRun (streams : List (List α)) (run : List SchedStep) : Bool :=
  validFrom streams (fun _ => 0) run

/-- Modelled from the spec: the records a run emits, each tagged with its
(output ordinal, input ordinal); the emitted record is always the chosen
input's next unconsumed record, whose position then advances. -/
def emitFrom (streams : List (List α)) (pos : Nat → Nat) :
    List SchedStep → List (Nat × Nat × α)
  | [] => []
  | s :: rest =>
    match (streams.getD s.input []).get? (pos s.input) with
    | none => emitFrom streams pos rest
    | some r => (s.output, s.input, r) :: emitFrom streams (bumpAt pos s.input) rest

/-- The records emitted for input i across all outputs, in emission order. -/
def emittedFor (streams : List (List α)) (run : List SchedStep) (i : Nat) : List α :=
  (emitFrom streams (fun _ => 0) run).filterMap
    (fun e => if e.2.1 = i then some e.2.2 else none)

/-- How many steps of a run pick input i. -/
def countPicks : List SchedStep → Nat → Nat
  | [], _ => 0
  | s :: rest, i => (if s.input = i then 1 else 0) + countPicks rest i

/-- One persisted Schedule Entry as replayed: (output ordinal, input
identifier, duration). -/
structure ScheduleEntry where
  output : Nat
  input : Nat
  duration : Nat
deriving DecidableEq

/-- The log entries for one output ordinal, in file order. -/
def entriesFor (log : List ScheduleEntry) (o : Nat) : List ScheduleEntry :=
  log.filter (fun e => e.output == o)

/-- Modelled from the spec: the Schedule Replayer (scheduler.cpp is not
under src/). Per spec section 4.4 a recorded log is "consumed
entry-by-entry per output in file order"; a host interleaving decides only
when each output takes its own next entry. Scheduling an output past its
last entry consumes nothing. -/
def replayRun (log : List ScheduleEntry) (c : Nat → Nat) : List Nat → List ScheduleEntry
  | [] => []
  | o :: rest =>
    match (entriesFor log o).get? (c o) with
    | none => replayRun log c rest
    | some e => e :: replayRun log (bumpAt c o) rest

/-- The (output, input, duration) triples produced for output o during a
replay under a given host interleaving. -/
def producedFor (log : List ScheduleEntry) (il : List Nat) (o : Nat) :
    List ScheduleEntry :=
  (replayRun log (fun _ => 0) il).filter (fun e => e.output == o)

/-- Occurrences of an output ordinal in a host interleaving. -/
def pullsOf (o : Nat) : List Nat → Nat
  | [] => 0
  | x :: rest => (if x = o then 1 else 0) + pullsOf o rest

/-- Modelled from the spec: the Scheduler's per-pull mode dispatch
(scheduler.cpp is not under src/). Per spec sections 4.1 and 4.4, in the
replay mapping modes (MAP_AS_PREVIOUSLY and MAP_TO_RECORDED_OUTPUT) the
next Schedule Entry of the persisted log decides the assignment and "Both
replay modes disable the Dependency Resolver and Quantum Controller
entirely"; only free mapping consults the dependency/quantum-driven
chooser, which receives the configured dependency mode and quantum. -/
def nextAssignment (ops : SchedLauncher.SchedulerOptions)
    (log : List ScheduleEntry) (idx : Nat)
    (freeChoice : SchedLauncher.DepMode → Int → Option ScheduleEntry) :
    Option ScheduleEntry :=
  match ops.mapping with
  | SchedLauncher.MappingMode.asPreviously => log.get? idx
  | SchedLauncher.MappingMode.toRecordedOutput => log.get? idx
  | SchedLauncher.MappingMode.toAnyOutput => freeChoice ops.deps ops.quantum_duration

end SchedModel

namespace Pt2Trace

/-- 2^64, the modulus of size_t / uint64_t arithmetic. -/
def U64MOD : Nat := 18446744073709551616

/-- Little-endian 64-bit load at a byte offset, with powers of 256 as the
place values; bytes beyond the buffer read as 0 (the loop's reads are
bounds-checked by the code before use; the default only pads the model). -/
def readU64 (buf : List Nat) (off : Nat) : Nat :=
  buf.getD off 0 % 256
  + buf.getD (off + 1) 0 % 256 * 256
  + buf.getD (off + 2) 0 % 256 * 65536
  + buf.getD (off + 3) 0 % 256 * 16777216
  + buf.getD (off + 4) 0 % 256 * 4294967296
  + buf.getD (off + 5) 0 % 256 * 1099511627776
  + buf.getD (off + 6) 0 % 256 * 281474976710656
  + buf.getD (off + 7) 0 % 256 * 72057594037927936

/-- The 8-byte syscall_pt_entry_t at index idx of a header starting at byte
offset off. -/
def entryAt (buf : List Nat) (off idx : Nat) : Nat :=
  readU64 buf (off + 8 * idx)

/-- The 3-bit type field of a syscall_pt_entry_t. -/
def entry_type (e : Nat) : Nat := e % 8

/-- The 61-bit payload (data_size / args_num) field of a
syscall_pt_entry_t. -/
def entry_payload (e : Nat) : Nat := e / 8

/-- Modelled from the spec: the hardware-trace decode pipeline is out of
the spec's scope and the tracer header syscall_pt_trace.h defining these
constants is not under src/; the layout is reconstructed from that header
as used by drpt2trace.cpp. The PT Data Buffer header is six 8-byte entries
with the data-boundary entry at index 2, so the header size is 48 bytes. -/
def PT_DATA_PDB_HEADER_SIZE : Nat := 48

/-- Modelled from the spec: see PT_DATA_PDB_HEADER_SIZE. The per-syscall
metadata (sysnum, argument count, syscall index entries) is three 8-byte
entries counted inside the boundary entry's data_size. -/
def SYSCALL_METADATA_SIZE : Nat := 24

/-- Modelled from the spec: see PT_DATA_PDB_HEADER_SIZE. The PT metadata
buffer header is three 8-byte entries (pid, tid, metadata boundary). -/
def PT_METADATA_PDB_HEADER_SIZE : Nat := 24

/-- Modelled from the spec: see PT_DATA_PDB_HEADER_SIZE. Index of the
boundary entry in a PDB header. -/
def PDB_HEADER_DATA_BOUNDARY_IDX : Nat := 2

/-- Modelled from the spec: see PT_DATA_PDB_HEADER_SIZE. Index of the
argument-count entry in a PT data PDB header. -/
def PDB_HEADER_NUM_ARGS_IDX : Nat := 4

/-- Modelled from the spec: see PT_DATA_PDB_HEADER_SIZE. Entry type tag of
a PT metadata boundary. -/
def SYSCALL_PT_ENTRY_TYPE_PT_METADATA_BOUNDARY : Nat := 2

/-- Modelled from the spec: see PT_DATA_PDB_HEADER_SIZE. Entry type tag of
a PT data boundary. -/
def SYSCALL_PT_ENTRY_TYPE_PT_DATA_BOUNDARY : Nat := 3

/-- How the DRMEMTRACE branch of drpt2trace's main ends: an "invalid PT raw
trace format" failure, a failed ptconverter->convert call (whose external
success per iteration is an oracle), normal loop exit after k conversions,
or fuel exhaustion (used only to express termination of the while loop). -/
inductive ConvResult where
  | invalidFormat
  | convertFailed (k : Nat)
  | converted (k : Nat)
  | outOfFuel
deriving DecidableEq

/-- The while loop of drpt2trace.cpp lines 510-544 over
cur_pdb_header_offset, with size_t / uint64_t arithmetic taken modulo 2^64:
header-bounds check, boundary-type check, pt_data_size computed from the
declared data_size minus SYSCALL_METADATA_SIZE and the argument bytes
(possibly underflowing), conversion of the PT data, then the offset
advances by PT_DATA_PDB_HEADER_SIZE plus argument bytes plus pt_data_size. -/
def pdbLoop (buf : List Nat) (convertOk : Nat → Bool) :
    Nat → Nat → Nat → ConvResult
  | 0, _, _ => ConvResult.outOfFuel
  | fuel + 1, off, k =>
    if buf.length ≤ off then ConvResult.converted k
    else if buf.length < off + PT_DATA_PDB_HEADER_SIZE then ConvResult.invalidFormat
    else if entry_type (entryAt buf off PDB_HEADER_DATA_BOUNDARY_IDX)
        ≠ SYSCALL_PT_ENTRY_TYPE_PT_DATA_BOUNDARY then ConvResult.invalidFormat
    else
      let argsNum := entry_payload (entryAt buf off PDB_HEADER_NUM_ARGS_IDX)
      let dataSize := entry_payload (entryAt buf off PDB_HEADER_DATA_BOUNDARY_IDX)
      let ptDataSize :=
        (dataSize + 2 * U64MOD - SYSCALL_METADATA_SIZE - argsNum * 8) % U64MOD
      if convertOk k = false then ConvResult.convertFailed k
      else
        pdbLoop buf convertOk fuel
          ((off + PT_DATA_PDB_HEADER_SIZE + argsNum * 8 + ptDataSize) % U64MOD)
          (k + 1)

/-- The DRMEMTRACE branch of drpt2trace's main: the metadata boundary type
check, the initial cur_pdb_header_offset, then the PDB loop, run with
enough fuel for one iteration per buffer byte plus the final bounds test. -/
def drmemtraceParse (buf : List Nat) (convertOk : Nat → Bool) : ConvResult :=
  if entry_type (entryAt buf 0 PDB_HEADER_DATA_BOUNDARY_IDX)
      ≠ SYSCALL_PT_ENTRY_TYPE_PT_METADATA_BOUNDARY then ConvResult.invalidFormat
  else
    pdbLoop buf convertOk (buf.length + 1)
      ((PT_METADATA_PDB_HEADER_SIZE
        + entry_payload (entryAt buf 0 PDB_HEADER_DATA_BOUNDARY_IDX)) % U64MOD)
      0

end Pt2Trace

namespace SchedLauncher

theorem dedupAdjacentFrom_chain (l : List Int) : ∀ p : Int,
    List.Chain' (fun a b => a ≠ b) (p :: dedupAdjacentFrom p l) := by
  induction l with
  | nil => intro p; simp [dedupAdjacentFrom]
  | cons x xs ih =>
    intro p
    by_cases hx : x = p
    · simpa [dedupAdjacentFrom, hx] using ih p
    · have hxs := ih x
      simp only [dedupAdjacentFrom, if_neg hx]
      exact List.Chain'.cons (fun h => hx h.symm) hxs

theorem simLoop_threadSeq_of_ne_nil (pulls : List Pull) : ∀ (seq : List Int)
    (prev : Int) (y : Nat), seq ≠ [] →
    (simLoop pulls seq prev y).threadSequence
      = seq ++ dedupAdjacentFrom prev (processedOkTids pulls) := by
  induction pulls with
  | nil => intro seq prev y _; simp [simLoop, processedOkTids, dedupAdjacentFrom]
  | cons p rest ih =>
    intro seq prev y hseq
    match hp : p.status with
    | StreamStatus.eof => simp [simLoop, hp, processedOkTids, dedupAdjacentFrom]
    | StreamStatus.err c => simp [simLoop, hp, processedOkTids, dedupAdjacentFrom]
    | StreamStatus.wait =>
      simp only [simLoop, hp, processedOkTids]
      exact ih seq prev (y + 1) hseq
    | StreamStatus.ok =>
      simp only [simLoop, hp, processedOkTids]
      by_cases htid : p.tid = prev
      · have hstep : simStep seq prev p.tid = seq := by
          simp [simStep, List.isEmpty_iff, hseq, htid]
        rw [hstep, htid]
        have := ih seq prev y hseq
        simpa [dedupAdjacentFrom] using this
      · have hstep : simStep seq prev p.tid = seq ++ [p.tid] := by
          simp [simStep, List.isEmpty_iff, hseq, htid]
        rw [hstep]
        have := ih (seq ++ [p.tid]) p.tid y (by simp)
        rw [this]
        simp [dedupAdjacentFrom, htid]

theorem simLoop_threadSeq_nil (pulls : List Pull) : ∀ (prev : Int) (y : Nat),
    (simLoop pulls [] prev y).threadSequence = dedupAdjacent (processedOkTids pulls) := by
  induction pulls with
  | nil => intro prev y; simp [simLoop, processedOkTids, dedupAdjacent]
  | cons p rest ih =>
    intro prev y
    match hp : p.status with
    | StreamStatus.eof => simp [simLoop, hp, processedOkTids, dedupAdjacent]
    | StreamStatus.err c => simp [simLoop, hp, processedOkTids, dedupAdjacent]
    | StreamStatus.wait =>
      simp only [simLoop, hp, processedOkTids]
      exact ih prev (y + 1)
    | StreamStatus.ok =>
      simp only [simLoop, hp, processedOkTids]
      have hstep : simStep [] prev p.tid = [p.tid] := by simp [simStep]
      rw [hstep]
      have := simLoop_threadSeq_of_ne_nil rest [p.tid] p.tid y (by simp)
      rw [this]
      simp [dedupAdjacent]

/-- Claim C9: the per-core thread_sequence built by simulate_core appends a
thread id exactly when the sequence is empty or the record's tid differs
from the preceding OK record's tid; the resulting sequence is exactly the
run-length compression of the tids of the records received with OK status,
and any two adjacent entries are distinct. -/
theorem c9_thread_sequence_is_rle :
    (∀ seq prev tid, (seq = [] ∨ tid ≠ prev → simStep seq prev tid = seq ++ [tid])
      ∧ (seq ≠ [] → tid = prev → simStep seq prev tid = seq))
    ∧ (∀ pulls, (simulate_core pulls).threadSequence
        = dedupAdjacent (processedOkTids pulls))
    ∧ (∀ pulls, List.Chain' (fun a b => a ≠ b) (simulate_core pulls).threadSequence) := by
  refine ⟨?_, ?_, ?_⟩
  · intro seq prev tid
    constructor
    · rintro (h | h)
      · simp [simStep, h]
      · by_cases hs : seq = [] <;> simp [simStep, List.isEmpty_iff, hs, h]
    · intro hs h
      simp [simStep, List.isEmpty_iff, hs, h]
  · intro pulls
    exact simLoop_threadSeq_nil pulls invalidThreadId 0
  · intro pulls
    show List.Chain' (fun a b => a ≠ b) (simLoop pulls [] invalidThreadId 0).threadSequence
    rw [simLoop_threadSeq_nil pulls invalidThreadId 0]
    cases h : processedOkTids pulls with
    | nil => simp [dedupAdjacent]
    | cons x xs =>
      simp only [dedupAdjacent]
      exact dedupAdjacentFrom_chain xs x

theorem simLoop_finished_iff (pulls : List Pull) : ∀ (seq : List Int)
    (prev : Int) (y : Nat),
    (simLoop pulls seq prev y).outcome = Outcome.finished
      ↔ firstTerminal pulls = some StreamStatus.eof := by
  induction pulls with
  | nil => intro seq prev y; simp [simLoop, firstTerminal]
  | cons p rest ih =>
    intro seq prev y
    match hp : p.status with
    | StreamStatus.eof => simp [simLoop, hp, firstTerminal]
    | StreamStatus.err c => simp [simLoop, hp, firstTerminal]
    | StreamStatus.wait =>
      simp only [simLoop, hp, firstTerminal]
      exact ih seq prev (y + 1)
    | StreamStatus.ok =>
      simp only [simLoop, hp, firstTerminal]
      exact ih (simStep seq prev p.tid) p.tid y

theorem simLoop_fatal_iff (pulls : List Pull) : ∀ (seq : List Int)
    (prev : Int) (y : Nat) (c : Nat),
    (simLoop pulls seq prev y).outcome = Outcome.fatal c
      ↔ firstTerminal pulls = some (StreamStatus.err c) := by
  induction pulls with
  | nil => intro seq prev y c; simp [simLoop, firstTerminal]
  | cons p rest ih =>
    intro seq prev y c
    match hp : p.status with
    | StreamStatus.eof => simp [simLoop, hp, firstTerminal]
    | StreamStatus.err c2 => simp [simLoop, hp, firstTerminal]
    | StreamStatus.wait =>
      simp only [simLoop, hp, firstTerminal]
      exact ih seq prev (y + 1) c
    | StreamStatus.ok =>
      simp only [simLoop, hp, firstTerminal]
      exact ih (simStep seq prev p.tid) p.tid y c

/-- Claim C7: the per-core consumer loop treats STATUS_WAIT as non-terminal
and non-erroneous: on wait it yields the processor and retries the pull
with otherwise unchanged state, so it never exits or reports failure on
wait; it terminates normally exactly when STATUS_EOF is returned, and it
reports the FATAL_ERROR failure exactly when a status that is neither OK,
WAIT nor EOF is returned first. -/
theorem c7_wait_yield_retry_eof_terminates :
    (∀ (t : Int) (pulls : List Pull) (seq : List Int) (prev : Int) (y : Nat),
      simLoop ({ status := StreamStatus.wait, tid := t } :: pulls) seq prev y
        = simLoop pulls seq prev (y + 1))
    ∧ (∀ pulls : List Pull,
        (simulate_core pulls).outcome = Outcome.finished
          ↔ firstTerminal pulls = some StreamStatus.eof)
    ∧ (∀ (pulls : List Pull) (c : Nat),
        (simulate_core pulls).outcome = Outcome.fatal c
          ↔ firstTerminal pulls = some (StreamStatus.err c)) := by
  refine ⟨?_, ?_, ?_⟩
  · intro t pulls seq prev y; rfl
  · intro pulls; exact simLoop_finished_iff pulls [] invalidThreadId 0
  · intro pulls c; exact simLoop_fatal_iff pulls [] invalidThreadId 0 c

/-- Witness for C7 at a concrete pull sequence: a wait is retried and the
loop then terminates normally at the following EOF. -/
theorem c7_witness :
    (simulate_core [⟨StreamStatus.wait, 0⟩, ⟨StreamStatus.eof, 0⟩]).outcome
      = Outcome.finished :=
  (c7_wait_yield_retry_eof_terminates.2.1
    [⟨StreamStatus.wait, 0⟩, ⟨StreamStatus.eof, 0⟩]).mpr (by rfl)

/-- Claim C4: a terminal error status pulled from one output stream is
surfaced to that stream's consumer as the FATAL_ERROR diagnostic carrying
the status code, never silently swallowed; and each core's consumer loop is
a function of its own stream alone, so the other outputs' consumer loops
may continue pulling records (a core whose stream ends with EOF still
terminates normally whatever error another core's stream yields). -/
theorem c4_error_surfaced_others_continue :
    (∀ (pulls : List Pull) (c : Nat),
      firstTerminal pulls = some (StreamStatus.err c) →
        (simulate_core pulls).outcome = Outcome.fatal c)
    ∧ (∀ (streams streams2 : Nat → List Pull) (j : Nat),
        streams j = streams2 j → runCore streams j = runCore streams2 j)
    ∧ (∀ (streams : Nat → List Pull) (i j : Nat) (c : Nat),
        (runCore streams i).outcome = Outcome.fatal c →
        firstTerminal (streams j) = some StreamStatus.eof →
        (runCore streams j).outcome = Outcome.finished) := by
  refine ⟨?_, ?_, ?_⟩
  · intro pulls c h
    exact (simLoop_fatal_iff pulls [] invalidThreadId 0 c).mpr h
  · intro s1 s2 j h
    simp [runCore, h]
  · intro s i j c hi hj
    exact (simLoop_finished_iff (s j) [] invalidThreadId 0).mpr hj

/-- Witness for C4: core 0's stream fails with status code 5, surfaced as
that fatal diagnostic, while core 1, whose stream ends with EOF, terminates
normally. -/
theorem c4_witness :
    (runCore (fun i => if i = 0 then [⟨StreamStatus.err 5, 0⟩]
        else [⟨StreamStatus.ok, 1⟩, ⟨StreamStatus.eof, 0⟩]) 0).outcome
        = Outcome.fatal 5
    ∧ (runCore (fun i => if i = 0 then [⟨StreamStatus.err 5, 0⟩]
        else [⟨StreamStatus.ok, 1⟩, ⟨StreamStatus.eof, 0⟩]) 1).outcome
        = Outcome.finished := by
  constructor
  · exact c4_error_surfaced_others_continue.1 _ 5 (by rfl)
  · exact c4_error_surfaced_others_continue.2.2
      (fun i => if i = 0 then [⟨StreamStatus.err 5, 0⟩]
        else [⟨StreamStatus.ok, 1⟩, ⟨StreamStatus.eof, 0⟩]) 0 1 5
      (c4_error_surfaced_others_continue.1 _ 5 (by rfl)) (by rfl)

/-- Claim C5: for every combination of the record-file, replay-file and
cpu-schedule-file options, the options the launcher passes to init set at
most one of schedule_record_ostream, schedule_replay_istream and
replay_as_traced_istream (so exactly one of no-persistence, recording,
recorded replay, as-traced replay is active), and init fails on a
self-contradictory configuration that sets both a record stream and a
replay stream. -/
theorem c5_at_most_one_persistence_stream :
    (∀ (v : Nat) (q : Int) (r p c : String),
      persistStreamsSet (makeSchedOps v q r p c) ≤ 1)
    ∧ (∀ (wl : List Nat) (n : Int) (ops : SchedulerOptions),
        ops.schedule_record_ostream = true →
        (ops.schedule_replay_istream = true ∨ ops.replay_as_traced_istream = true) →
        (schedInit wl n ops).ok = false) := by
  constructor
  · intro v q r p c
    by_cases hr : r = "" <;> by_cases hp : p = "" <;> by_cases hc : c = "" <;>
      simp [makeSchedOps, persistStreamsSet, hr, hp, hc]
  · intro wl n ops hrec hrep
    unfold schedInit
    by_cases hn : n ≤ 0
    · simp [hn]
    · have hcond : (ops.schedule_record_ostream
          && (ops.schedule_replay_istream || ops.replay_as_traced_istream)) = true := by
        rcases hrep with h | h <;> simp [hrec, h]
      simp [hn, hcond]

/-- Witness for C5: a launcher invocation giving both a record file and a
replay file keeps at most one stream (the else-if chain prefers the record
stream), and an options struct that does set both streams makes init fail. -/
theorem c5_witness :
    persistStreamsSet (makeSchedOps 1 1000 "sched.zip" "replay.zip" "") ≤ 1
    ∧ (schedInit [2] 4
        { mapping := MappingMode.toAnyOutput, deps := DepMode.timestamps,
          quantum_duration := 1000, verbosity := 1,
          schedule_record_ostream := true, schedule_replay_istream := true,
          replay_as_traced_istream := false }).ok = false :=
  ⟨c5_at_most_one_persistence_stream.1 1 1000 "sched.zip" "replay.zip" "",
   c5_at_most_one_persistence_stream.2 [2] 4 _ rfl (Or.inl rfl)⟩

/-- Claim C3: with a replay-file or cpu-schedule-file configuration the
launcher selects a replay mapping mode, under which the per-pull assignment
is decided by the persisted log alone: it is independent of the
dependency/quantum-driven chooser and of the configured quantum and
verbosity, in both replay configurations. -/
theorem c3_replay_disables_deps_quantum :
    ∀ (v v2 : Nat) (q q2 : Int) (p c : String), (p ≠ "" ∨ c ≠ "") →
      ∀ (log : List SchedModel.ScheduleEntry) (idx : Nat)
        (f g : DepMode → Int → Option SchedModel.ScheduleEntry),
        SchedModel.nextAssignment (makeSchedOps v q "" p c) log idx f = log.get? idx
        ∧ SchedModel.nextAssignment (makeSchedOps v2 q2 "" p c) log idx g
            = SchedModel.nextAssignment (makeSchedOps v q "" p c) log idx f := by
  intro v v2 q q2 p c hpc log idx f g
  by_cases hp : p = ""
  · have hc : c ≠ "" := by tauto
    constructor <;> simp [makeSchedOps, hp, hc, SchedModel.nextAssignment]
  · constructor <;> simp [makeSchedOps, hp, SchedModel.nextAssignment]

/-- Witness for C3: replaying a recorded schedule at a concrete log hands
back the log's first entry regardless of the free-mode chooser. -/
theorem c3_witness :
    SchedModel.nextAssignment (makeSchedOps 1 1000 "" "replay.zip" "")
      [⟨0, 7, 3⟩] 0 (fun _ _ => none) = some ⟨0, 7, 3⟩ :=
  (c3_replay_disables_deps_quantum 1 1 1000 1000 "replay.zip" ""
    (Or.inl (by decide)) [⟨0, 7, 3⟩] 0 (fun _ _ => none) (fun _ _ => none)).1

/-- Claim C6: core count 0 is inside op_num_cores' declared range, and
running the launcher with core_count 0 makes init fail with a descriptive
configuration error before any output stream is created; the launcher
reports that error string and terminates before starting any consumer
thread. -/
theorem c6_zero_cores_config_error :
    numCoresAccepted 0 = true
    ∧ (∀ (td r p c : String) (q : Int) (v : Nat) (wl : List Nat) (w : Bool),
        td ≠ "" →
        (launcherMain td r p c 0 q v wl w).result
            = LauncherResult.initFatal "invalid core count"
        ∧ (launcherMain td r p c 0 q v wl w).threadsStarted = 0
        ∧ (launcherMain td r p c 0 q v wl w).outputStreams = 0
        ∧ (schedInit wl 0 (makeSchedOps v q r p c)).outputStreams = 0
        ∧ ∀ i, LauncherEvent.spawnThread i ∉ (launcherMain td r p c 0 q v wl w).events) := by
  constructor
  · rfl
  · intro td r p c q v wl w htd
    have hinit : schedInit wl 0 (makeSchedOps v q r p c)
        = ⟨false, "invalid core count", 0⟩ := by
      simp [schedInit]
    refine ⟨?_, ?_, ?_, ?_, ?_⟩ <;>
      simp [launcherMain, htd, hinit]

theorem get?_lt_of_notin_right {α : Type} {l1 l2 : List α} {x : α} {i : Nat}
    (hx : x ∉ l2) (h : (l1 ++ l2).get? i = some x) : i < l1.length := by
  by_contra hge
  push_neg at hge
  rw [List.get?_append_right hge] at h
  exact hx (List.get?_mem h)

theorem get?_ge_of_notin_left {α : Type} {l1 l2 : List α} {x : α} {i : Nat}
    (hx : x ∉ l1) (h : (l1 ++ l2).get? i = some x) : l1.length ≤ i := by
  by_contra hlt
  push_neg at hlt
  rw [List.get?_append hlt] at h
  exact hx (List.get?_mem h)

theorem countEv_append (x : LauncherEvent) (l1 l2 : List LauncherEvent) :
    countEv x (l1 ++ l2) = countEv x l1 + countEv x l2 := by
  induction l1 with
  | nil => simp [countEv]
  | cons y ys ih =>
    show (if y = x then 1 else 0) + countEv x (ys ++ l2)
        = ((if y = x then 1 else 0) + countEv x ys) + countEv x l2
    rw [ih]
    omega

theorem countEv_eq_zero {x : LauncherEvent} {l : List LauncherEvent}
    (h : x ∉ l) : countEv x l = 0 := by
  induction l with
  | nil => rfl
  | cons y ys ih =>
    have hy : ¬(y = x) := by
      intro hyx
      subst hyx
      exact h (List.mem_cons_self y ys)
    have hx : x ∉ ys := fun hm => h (List.mem_cons_of_mem y hm)
    simp [countEv, hy, ih hx]

/-- Claim C8: write_recorded_schedule is called only when a record file was
configured, at most once per run, and only after every per-core simulator
thread has been joined; every started simulator thread is joined. -/
theorem c8_write_after_joins :
    ∀ (td r p c : String) (nc q : Int) (v : Nat) (wl : List Nat) (w : Bool),
      (LauncherEvent.writeSchedCall ∈ (launcherMain td r p c nc q v wl w).events
        → r ≠ "")
      ∧ countEv LauncherEvent.writeSchedCall
          (launcherMain td r p c nc q v wl w).events ≤ 1
      ∧ (∀ (i j k : Nat),
          (launcherMain td r p c nc q v wl w).events.get? i
              = some (LauncherEvent.joinThread k) →
          (launcherMain td r p c nc q v wl w).events.get? j
              = some LauncherEvent.writeSchedCall → i < j)
      ∧ (∀ i, i < (launcherMain td r p c nc q v wl w).threadsStarted →
          LauncherEvent.joinThread i ∈ (launcherMain td r p c nc q v wl w).events) := by
  intro td r p c nc q v wl w
  by_cases htd : td = ""
  · have hev : (launcherMain td r p c nc q v wl w).events = [] := by
      simp [launcherMain, htd]
    have hts : (launcherMain td r p c nc q v wl w).threadsStarted = 0 := by
      simp [launcherMain, htd]
    refine ⟨?_, ?_, ?_, ?_⟩
    · intro hmem; rw [hev] at hmem; simp at hmem
    · rw [hev]; simp [countEv]
    · intro i j k hi _; rw [hev] at hi; simp at hi
    · intro i hi; rw [hts] at hi; omega
  · by_cases hok : (schedInit wl nc (makeSchedOps v q r p c)).ok = true
    · have hev : (launcherMain td r p c nc q v wl w).events
          = (LauncherEvent.initCall
              :: ((List.range nc.toNat).map LauncherEvent.spawnThread
                ++ ((List.range nc.toNat).map LauncherEvent.joinThread
                  ++ [LauncherEvent.printSched])))
            ++ (if r = "" then [] else [LauncherEvent.writeSchedCall]) := by
        simp [launcherMain, htd, hok, List.append_assoc]
      have hts : (launcherMain td r p c nc q v wl w).threadsStarted = nc.toNat := by
        simp [launcherMain, htd, hok]
      have hwf : LauncherEvent.writeSchedCall ∉
          (LauncherEvent.initCall
            :: ((List.range nc.toNat).map LauncherEvent.spawnThread
              ++ ((List.range nc.toNat).map LauncherEvent.joinThread
                ++ [LauncherEvent.printSched]))) := by
        simp
      have hjw : ∀ k : Nat, LauncherEvent.joinThread k ∉
          (if r = "" then ([] : List LauncherEvent)
            else [LauncherEvent.writeSchedCall]) := by
        intro k; split <;> simp
      refine ⟨?_, ?_, ?_, ?_⟩
      · intro hmem hr
        rw [hev] at hmem
        rcases List.mem_append.mp hmem with hm | hm
        · exact hwf hm
        · rw [if_pos hr] at hm; simp at hm
      · rw [hev, countEv_append, countEv_eq_zero hwf]
        split <;> simp [countEv]
      · intro i j k hi hj
        rw [hev] at hi hj
        have h1 := get?_lt_of_notin_right (hjw k) hi
        have h2 := get?_ge_of_notin_left hwf hj
        omega
      · intro i hi
        rw [hts] at hi
        rw [hev]
        refine List.mem_append.mpr (Or.inl ?_)
        refine List.mem_cons_of_mem _ (List.mem_append.mpr (Or.inr ?_))
        refine List.mem_append.mpr (Or.inl ?_)
        exact List.mem_map.mpr ⟨i, List.mem_range.mpr hi, rfl⟩
    · have hokf : (schedInit wl nc (makeSchedOps v q r p c)).ok = false := by
        cases hh : (schedInit wl nc (makeSchedOps v q r p c)).ok
        · rfl
        · exact absurd hh hok
      have hev : (launcherMain td r p c nc q v wl w).events
          = [LauncherEvent.initCall] := by
        simp [launcherMain, htd, hokf]
      have hts : (launcherMain td r p c nc q v wl w).threadsStarted = 0 := by
        simp [launcherMain, htd, hokf]
      refine ⟨?_, ?_, ?_, ?_⟩
      · intro hmem; rw [hev] at hmem; simp at hmem
      · rw [hev]; simp [countEv]
      · intro i j k hi _
        rw [hev] at hi
        rcases i with _ | i <;> simp at hi
      · intro i hi; rw [hts] at hi; omega

/-- Witness for C8: with a record file configured and two cores, thread 0
is joined and appears in the event list. -/
theorem c8_witness :
    LauncherEvent.joinThread 0
      ∈ (launcherMain "t" "rec.zip" "" "" 2 5 1 [3] true).events :=
  (c8_write_after_joins "t" "rec.zip" "" "" 2 5 1 [3] true).2.2.2 0 (by decide)

/-- Witness for C6: a concrete launcher invocation with 0 cores. -/
theorem c6_witness :
    numCoresAccepted 0 = true
    ∧ (launcherMain "mytrace" "" "" "" 0 1000000 1 [3] true).result
        = LauncherResult.initFatal "invalid core count" :=
  ⟨c6_zero_cores_config_error.1,
   (c6_zero_cores_config_error.2 "mytrace" "" "" "" 1000000 1 [3] true
     (by decide)).1⟩

end SchedLauncher

namespace SchedModel

theorem drop_get_some {α : Type} (l : List α) : ∀ (n : Nat) (r : α),
    l.get? n = some r → l.drop n = r :: l.drop (n + 1) := by
  induction l with
  | nil => intro n r h; simp at h
  | cons x xs ih =>
    intro n r h
    cases n with
    | zero =>
      simp at h
      subst h
      simp
    | succ m =>
      simp only [List.get?_cons_succ] at h
      simp only [List.drop_succ_cons]
      exact ih m r h

theorem emitFrom_filterMap {α : Type} (streams : List (List α)) :
    ∀ (run : List SchedStep) (pos : Nat → Nat) (i : Nat),
      validFrom streams pos run = true →
      (emitFrom streams pos run).filterMap
          (fun e => if e.2.1 = i then some e.2.2 else none)
        = ((streams.getD i []).drop (pos i)).take (countPicks run i) := by
  intro run
  induction run with
  | nil => intro pos i _; simp [emitFrom, countPicks]
  | cons s rest ih =>
    intro pos i hv
    cases hg : (streams.getD s.input []).get? (pos s.input) with
    | none =>
      simp only [validFrom, hg] at hv
      exact Bool.noConfusion hv
    | some r =>
      simp only [validFrom, hg] at hv
      simp only [emitFrom, hg]
      by_cases hi : s.input = i
      · subst hi
        have hf : List.filterMap
            (fun e : Nat × Nat × α => if e.2.1 = s.input then some e.2.2 else none)
            ((s.output, s.input, r) :: emitFrom streams (bumpAt pos s.input) rest)
            = r :: List.filterMap
                (fun e : Nat × Nat × α => if e.2.1 = s.input then some e.2.2 else none)
                (emitFrom streams (bumpAt pos s.input) rest) := by
          simp
        rw [hf]
        have hc : countPicks (s :: rest) s.input = countPicks rest s.input + 1 := by
          simp [countPicks]; omega
        rw [hc, drop_get_some _ _ _ hg, List.take_succ_cons]
        have hb : bumpAt pos s.input s.input = pos s.input + 1 := by simp [bumpAt]
        have := ih (bumpAt pos s.input) s.input hv
        rw [hb] at this
        rw [this]
      · have hf : List.filterMap
            (fun e : Nat × Nat × α => if e.2.1 = i then some e.2.2 else none)
            ((s.output, s.input, r) :: emitFrom streams (bumpAt pos s.input) rest)
            = List.filterMap
                (fun e : Nat × Nat × α => if e.2.1 = i then some e.2.2 else none)
                (emitFrom streams (bumpAt pos s.input) rest) := by
          simp [hi]
        rw [hf]
        have hc : countPicks (s :: rest) i = countPicks rest i := by
          simp [countPicks, hi]
        have hb : bumpAt pos s.input i = pos i := by
          have : i ≠ s.input := fun he => hi he.symm
          simp [bumpAt, this]
        rw [hc]
        have := ih (bumpAt pos s.input) i hv
        rw [hb] at this
        rw [this]

/-- Claim C1: for every input and every valid scheduler run, the
concatenation of the records emitted for that input across all Output
Streams, in emission order, is exactly the consumed prefix of the input's
original Record Stream (no record skipped, duplicated or reordered), and a
run that consumes an input completely emits exactly that input's whole
stream. -/
theorem c1_input_stream_order_preserved {α : Type} :
    ∀ (streams : List (List α)) (run : List SchedStep),
      validRun streams run = true →
      (∀ i, emittedFor streams run i
          = (streams.getD i []).take (countPicks run i))
      ∧ (∀ i, countPicks run i = (streams.getD i []).length →
          emittedFor streams run i = streams.getD i []) := by
  intro streams run hv
  have hmain : ∀ i, emittedFor streams run i
      = (streams.getD i []).take (countPicks run i) := by
    intro i
    have h := emitFrom_filterMap streams run (fun _ => 0) i hv
    simpa [emittedFor] using h
  refine ⟨hmain, ?_⟩
  intro i hlen
  rw [hmain i, hlen]
  exact List.take_length _

/-- Witness for C1: a concrete valid two-input run on one output emits
input 0's records in stream order and completely. -/
theorem c1_witness :
    validRun [[10, 20], [30]] [⟨0, 0⟩, ⟨0, 1⟩, ⟨0, 0⟩] = true
    ∧ emittedFor [[10, 20], [30]] [⟨0, 0⟩, ⟨0, 1⟩, ⟨0, 0⟩] 0 = [10, 20] := by
  refine ⟨by decide, ?_⟩
  have h := (c1_input_stream_order_preserved [[10, 20], [30]]
    [⟨0, 0⟩, ⟨0, 1⟩, ⟨0, 0⟩] (by decide)).1 0
  exact h.trans (by decide)

theorem replayRun_filter (log : List ScheduleEntry) :
    ∀ (il : List Nat) (c : Nat → Nat) (o : Nat),
      (replayRun log c il).filter (fun e => e.output == o)
        = ((entriesFor log o).drop (c o)).take (pullsOf o il) := by
  intro il
  induction il with
  | nil => intro c o; simp [replayRun, pullsOf]
  | cons x rest ih =>
    intro c o
    cases hg : (entriesFor log x).get? (c x) with
    | none =>
      simp only [replayRun, hg]
      by_cases ho : x = o
      · subst ho
        have hlen : (entriesFor log x).length ≤ c x := by
          rw [← List.get?_eq_none]
          exact hg
        have hdrop : (entriesFor log x).drop (c x) = [] :=
          List.drop_eq_nil_of_le hlen
        rw [ih c x, hdrop]
        simp
      · rw [ih c o]
        have : pullsOf o (x :: rest) = pullsOf o rest := by
          simp [pullsOf, ho]
        rw [this]
    | some e =>
      have hmem : e ∈ entriesFor log x := List.get?_mem hg
      have hout : e.output = x := by
        have := List.of_mem_filter hmem
        simpa using this
      simp only [replayRun, hg]
      by_cases ho : x = o
      · subst ho
        have hfe : List.filter (fun e2 => e2.output == x)
            (e :: replayRun log (bumpAt c x) rest)
            = e :: List.filter (fun e2 => e2.output == x)
                (replayRun log (bumpAt c x) rest) := by
          simp [List.filter_cons, hout]
        rw [hfe]
        have hc : pullsOf x (x :: rest) = pullsOf x rest + 1 := by
          simp [pullsOf]; omega
        rw [hc, drop_get_some _ _ _ hg, List.take_succ_cons]
        have hb : bumpAt c x x = c x + 1 := by simp [bumpAt]
        have := ih (bumpAt c x) x
        rw [hb] at this
        rw [this]
      · have hfe : List.filter (fun e2 => e2.output == o)
            (e :: replayRun log (bumpAt c x) rest)
            = List.filter (fun e2 => e2.output == o)
                (replayRun log (bumpAt c x) rest) := by
          simp [List.filter_cons, hout, ho]
        rw [hfe]
        have hb : bumpAt c x o = c o := by
          have : o ≠ x := fun he => ho he.symm
          simp [bumpAt, this]
        have hc : pullsOf o (x :: rest) = pullsOf o rest := by
          simp [pullsOf, ho]
        rw [ih (bumpAt c x) o, hb, hc]

/-- Claim C2: replaying a persisted schedule log is deterministic across
host thread interleavings: under any two complete interleavings, each
output's produced (output ordinal, input identifier, duration) triple
sequence equals the log's entries for that output in file order, so any
two replays of the same log yield identical triple sequences. -/
theorem c2_replay_run_deterministic :
    ∀ (log : List ScheduleEntry) (il il2 : List Nat) (o : Nat),
      (entriesFor log o).length ≤ pullsOf o il →
      (entriesFor log o).length ≤ pullsOf o il2 →
      producedFor log il o = entriesFor log o
      ∧ producedFor log il2 o = producedFor log il o := by
  intro log il il2 o h1 h2
  have he : ∀ (il3 : List Nat), (entriesFor log o).length ≤ pullsOf o il3 →
      producedFor log il3 o = entriesFor log o := by
    intro il3 h3
    unfold producedFor
    rw [replayRun_filter log il3 (fun _ => 0) o]
    simp only [List.drop_zero]
    exact List.take_of_length_le h3
  refine ⟨he il h1, ?_⟩
  rw [he il h1, he il2 h2]

/-- Witness for C2: a two-entry log replayed under two different complete
host interleavings yields identical per-output triples, equal to the log. -/
theorem c2_witness :
    producedFor [⟨0, 1, 2⟩, ⟨0, 3, 4⟩] [0, 0] 0 = [⟨0, 1, 2⟩, ⟨0, 3, 4⟩]
    ∧ producedFor [⟨0, 1, 2⟩, ⟨0, 3, 4⟩] [1, 0, 0, 1] 0
        = producedFor [⟨0, 1, 2⟩, ⟨0, 3, 4⟩] [0, 0] 0 := by
  have h := c2_replay_run_deterministic [⟨0, 1, 2⟩, ⟨0, 3, 4⟩] [0, 0]
    [1, 0, 0, 1] 0 (by decide) (by decide)
  have he : entriesFor [⟨0, 1, 2⟩, ⟨0, 3, 4⟩] 0 = [⟨0, 1, 2⟩, ⟨0, 3, 4⟩] := by decide
  exact ⟨h.1.trans he, h.2⟩

end SchedModel

namespace Pt2Trace

theorem readU64_lt (buf : List Nat) (off : Nat) : readU64 buf off < U64MOD := by
  unfold readU64 U64MOD
  have h0 : buf.getD off 0 % 256 < 256 := Nat.mod_lt _ (by norm_num)
  have h1 : buf.getD (off + 1) 0 % 256 < 256 := Nat.mod_lt _ (by norm_num)
  have h2 : buf.getD (off + 2) 0 % 256 < 256 := Nat.mod_lt _ (by norm_num)
  have h3 : buf.getD (off + 3) 0 % 256 < 256 := Nat.mod_lt _ (by norm_num)
  have h4 : buf.getD (off + 4) 0 % 256 < 256 := Nat.mod_lt _ (by norm_num)
  have h5 : buf.getD (off + 5) 0 % 256 < 256 := Nat.mod_lt _ (by norm_num)
  have h6 : buf.getD (off + 6) 0 % 256 < 256 := Nat.mod_lt _ (by norm_num)
  have h7 : buf.getD (off + 7) 0 % 256 < 256 := Nat.mod_lt _ (by norm_num)
  omega

theorem entry_payload_lt (buf : List Nat) (off idx : Nat) :
    entry_payload (entryAt buf off idx) < 2305843009213693952 := by
  have h := readU64_lt buf (off + 8 * idx)
  unfold U64MOD at h
  unfold entry_payload entryAt
  omega

theorem pdbLoop_not_outOfFuel (buf : List Nat) (convertOk : Nat → Bool)
    (hlen : buf.length < 9223372036854775808) :
    ∀ (n off k : Nat), buf.length ≤ off + n →
      pdbLoop buf convertOk (n + 1) off k ≠ ConvResult.outOfFuel := by
  intro n
  induction n with
  | zero =>
    intro off k h
    have h1 : buf.length ≤ off := by omega
    simp [pdbLoop, h1]
  | succ m ih =>
    intro off k h
    by_cases h1 : buf.length ≤ off
    · simp [pdbLoop, h1]
    · by_cases h2 : buf.length < off + PT_DATA_PDB_HEADER_SIZE
      · simp [pdbLoop, h1, h2]
      · by_cases h3 : entry_type (entryAt buf off PDB_HEADER_DATA_BOUNDARY_IDX)
            ≠ SYSCALL_PT_ENTRY_TYPE_PT_DATA_BOUNDARY
        · simp [pdbLoop, h1, h2, h3]
        · by_cases h4 : convertOk k = false
          · simp [pdbLoop, h1, h2, h3, h4]
          · have hstep : pdbLoop buf convertOk (m + 1 + 1) off k
                = pdbLoop buf convertOk (m + 1)
                    ((off + PT_DATA_PDB_HEADER_SIZE
                      + entry_payload (entryAt buf off PDB_HEADER_NUM_ARGS_IDX) * 8
                      + (entry_payload (entryAt buf off PDB_HEADER_DATA_BOUNDARY_IDX)
                          + 2 * U64MOD - SYSCALL_METADATA_SIZE
                          - entry_payload (entryAt buf off PDB_HEADER_NUM_ARGS_IDX) * 8)
                        % U64MOD) % U64MOD)
                    (k + 1) := by
              simp [pdbLoop, h1, h2, h3, h4]
            rw [hstep]
            apply ih
            have hd := entry_payload_lt buf off PDB_HEADER_DATA_BOUNDARY_IDX
            have ha := entry_payload_lt buf off PDB_HEADER_NUM_ARGS_IDX
            have hoff : off < buf.length := by omega
            unfold PT_DATA_PDB_HEADER_SIZE SYSCALL_METADATA_SIZE U64MOD
            omega

/-- Claim C10: for every finite byte buffer loaded from the raw PT file
(whose size, coming from a stat size through load_file, is below 2^63),
the DRMEMTRACE parsing loop of drpt2trace's main terminates: each
iteration either returns a failure status (header beyond the buffer,
boundary-type mismatch, or a failed conversion) or strictly advances
cur_pdb_header_offset, including when the declared data_size makes the
computed pt_data_size underflow, so fuel of one iteration per buffer byte
is never exhausted. -/
theorem c10_drmemtrace_parse_terminates :
    ∀ (buf : List Nat) (convertOk : Nat → Bool),
      buf.length < 9223372036854775808 →
      (∀ (n off k : Nat), buf.length ≤ off + n →
        pdbLoop buf convertOk (n + 1) off k ≠ ConvResult.outOfFuel)
      ∧ drmemtraceParse buf convertOk ≠ ConvResult.outOfFuel := by
  intro buf cv hlen
  have hloop := pdbLoop_not_outOfFuel buf cv hlen
  refine ⟨hloop, ?_⟩
  unfold drmemtraceParse
  by_cases hmeta : entry_type (entryAt buf 0 PDB_HEADER_DATA_BOUNDARY_IDX)
      ≠ SYSCALL_PT_ENTRY_TYPE_PT_METADATA_BOUNDARY
  · simp [hmeta]
  · rw [if_neg hmeta]
    exact hloop buf.length _ 0 (by omega)

/-- Witness for C10: a 72-byte buffer holding a metadata header and one PT
data PDB whose declared data_size 0 makes pt_data_size underflow; parsing
still terminates. -/
theorem c10_witness :
    (List.replicate 16 0 ++ 2 :: List.replicate 23 0
      ++ 3 :: List.replicate 31 (0 : Nat)).length < 9223372036854775808
    ∧ drmemtraceParse
        (List.replicate 16 0 ++ 2 :: List.replicate 23 0
          ++ 3 :: List.replicate 31 (0 : Nat)) (fun _ => true)
        ≠ ConvResult.outOfFuel :=
  ⟨by decide,
   (c10_drmemtrace_parse_terminates _ (fun _ => true) (by decide)).2⟩

end Pt2Trace
